import Mathlib

/-!
# LinuxLauncher: a shallow embedding of `linux_launcher.cpp`

The JNI unit `core/main/src/main/cpp/linux_launcher.cpp` exposes four
entry points: `nativeExec`, `nativeWaitFor`, `nativeKill` and
`nativeExecWithLinker`.  This development embeds the three that the
specification's contracts are about and proves (or refutes) those contracts.

Modelling conventions

* C strings obtained through `GetStringUTFChars` are Lean `String`s; the JNI
  accessors themselves are pure reads of the Java arguments.
* `malloc`/`new[]` storage is an explicit heap: a list of blocks addressed by
  position, in which a released block leaves a tombstone, so an allocation
  always receives an address that was never used before.  `strdup` and
  `new[]` always succeed.
* The results of `fork`, `execve` and `waitpid` are inputs: the functions are
  evaluated in one process, for the value that the primitive returned there.
* The `int` status word is its 32-bit pattern, a `Nat`; values returned to
  Java (`jint`) are `Int`.
* Lengths are the `jsize` of a live Java array, far below `2^31 - 5`, so the
  `int` additions `argc + 1`, `originalArgc + 4` are exact.
-/

namespace LinuxLauncher

/-! ## Wait-status macros of `<sys/wait.h>` -/

/-- Modelled from the spec: the platform macro `WTERMSIG(s)` of `<sys/wait.h>`
is not among the sources; it is `((s) & 0x7f)`, the low seven bits of the
status word. -/
def WTERMSIG (s : Nat) : Nat := s &&& 0x7f

/-- Modelled from the spec: the platform macro `WEXITSTATUS(s)` of
`<sys/wait.h>` is not among the sources; it is `(((s) & 0xff00) >> 8)`, the
exit code masked to its low-order eight bits. -/
def WEXITSTATUS (s : Nat) : Nat := (s &&& 0xff00) >>> 8

/-- Modelled from the spec: the platform macro `WIFEXITED(s)` of `<sys/wait.h>`
is not among the sources; it is `(WTERMSIG(s) == 0)`: the process ran to
completion. -/
def WIFEXITED (s : Nat) : Bool := WTERMSIG s == 0

/-- Modelled from the spec: the platform macro `WIFSIGNALED(s)` of
`<sys/wait.h>` is not among the sources; it is `(WTERMSIG((s)+1) >= 2)`: the
process was terminated by a signal.  The addition is on a 32-bit word. -/
def WIFSIGNALED (s : Nat) : Bool := decide (WTERMSIG ((s + 1) % 2 ^ 32) ≥ 2)

/-- Modelled from the spec: the status word the kernel records for a process
that ended through `_exit(code)`, namely `(code & 0xff) << 8`. -/
def exitStatusWord (code : Nat) : Nat := (code &&& 0xff) <<< 8

/-! ## The wait primitive -/

/-- What one call of `waitpid(pid, &status, 0)` leaves behind: its return
value and the contents of `status`. -/
structure WaitReply where
  result : Int
  status : Nat
deriving DecidableEq, Repr

/-- The kernel as seen by the supervisor: the reply it gives to the `n`-th
`waitpid` call for a given pid, and the number of `waitpid` calls made so
far. -/
structure Kernel where
  replies : Nat → Int → WaitReply
  calls : Nat

/-- The call `waitpid((pid_t) pid, &status, 0)`. -/
def waitpid (k : Kernel) (pid : Int) : WaitReply × Kernel :=
  (k.replies k.calls pid, { k with calls := k.calls + 1 })

/-- `Java_com_rk_terminal_LinuxLauncher_nativeWaitFor` (lines 100-125). -/
def nativeWaitFor (k : Kernel) (pid : Int) : Int × Kernel :=
  let (r, k1) := waitpid k pid
  if r.result < 0 then
    (-1, k1)
  else if WIFEXITED r.status then
    let exitCode := WEXITSTATUS r.status
    ((exitCode : Int), k1)
  else if WIFSIGNALED r.status then
    let signal := WTERMSIG r.status
    (128 + (signal : Int), k1)
  else
    (-1, k1)

/-- A kernel whose every `waitpid` call answers `r`. -/
def Kernel.const (r : WaitReply) : Kernel := ⟨fun _ _ => r, 0⟩

/-! ## Heap storage -/

/-- A `char*` cell of a pointer array: not yet written, `nullptr`, or the
address of a block. -/
inductive Slot where
  | uninit
  | null
  | ptr (a : Nat)
deriving DecidableEq, Repr

/-- A heap block: a C string made by `strdup`, or a `char*[]` made by
`new char*[n]`. -/
inductive Block where
  | str (s : String)
  | arr (cells : List Slot)
deriving DecidableEq, Repr

/-- The heap: the block at each address, `none` once it has been released. -/
abbrev Heap := List (Option Block)

/-- Allocation: the block is placed at the first address never used. -/
def alloc (h : Heap) (b : Block) : Heap × Nat := (h ++ [some b], h.length)

/-- The call `strdup(s)`. -/
def strdup (h : Heap) (s : String) : Heap × Nat := alloc h (Block.str s)

/-- The expression `new char*[n]`: `n` cells, none of them written. -/
def newArray (h : Heap) (n : Nat) : Heap × Nat :=
  alloc h (Block.arr (List.replicate n Slot.uninit))

/-- The assignment `a[i] = v` through the array pointer `a`. -/
def store (h : Heap) (a i : Nat) (v : Slot) : Heap :=
  match h[a]? with
  | some (some (Block.arr cells)) => h.set a (some (Block.arr (cells.set i v)))
  | _ => h

/-- The read `a[i]` through the array pointer `a`. -/
def load (h : Heap) (a i : Nat) : Slot :=
  match h[a]? with
  | some (some (Block.arr cells)) => cells.getD i Slot.uninit
  | _ => Slot.uninit

/-- The call `free(p)`; `free(nullptr)` does nothing. -/
def free (h : Heap) (p : Slot) : Heap :=
  match p with
  | Slot.ptr a => h.set a none
  | _ => h

/-- The statement `delete[] a`. -/
def deleteArray (h : Heap) (a : Nat) : Heap := h.set a none

/-- The addresses at or above `base` that hold a live block: the allocations
made since the heap had `base` blocks that have not been released. -/
def liveSince (base : Nat) (h : Heap) : List Nat :=
  (List.range h.length).filter (fun a => decide (base ≤ a) && (h.getD a none).isSome)

/-! ## Reading a vector the way `execve` does -/

/-- The C string a cell points to. -/
def cstrAt (h : Heap) : Slot → Option String
  | Slot.ptr a =>
    match h[a]? with
    | some (some (Block.str s)) => some s
    | _ => none
  | _ => none

/-- The strings of a pointer array up to its first `nullptr`; there is no
result when a cell before it is not a pointer to a live string, or when the
array ends before a `nullptr` is met. -/
def readCells (h : Heap) : List Slot → Option (List String)
  | [] => none
  | Slot.null :: _ => some []
  | c :: cs =>
    match cstrAt h c, readCells h cs with
    | some s, some r => some (s :: r)
    | _, _ => none

/-- The cells of the array at address `a`. -/
def cellsAt (h : Heap) (a : Nat) : Option (List Slot) :=
  match h[a]? with
  | some (some (Block.arr cells)) => some cells
  | _ => none

/-- The null-terminated vector of strings at address `a`. -/
def readVec (h : Heap) (a : Nat) : Option (List String) :=
  match cellsAt h a with
  | some cells => readCells h cells
  | none => none

/-! ## The spawn operations -/

/-- One call `execve(path, argv, envp)`: the path, the addresses of the two
vectors, and the heap at the time of the call. -/
structure ExecCall where
  path : String
  argv : Nat
  envp : Nat
  heap : Heap
deriving DecidableEq, Repr

/-- How a spawn operation ends in the process that runs it.
* `returned ret h`: control goes back to the Java caller with value `ret`,
  the heap being `h`;
* `replaced c`: `execve` succeeded, the process image is the new program;
* `exited code c h`: `execve` returned, the process ended by `_exit(code)`
  with heap `h`. -/
inductive Outcome where
  | returned (ret : Int) (h : Heap)
  | replaced (c : ExecCall)
  | exited (code : Nat) (c : ExecCall) (h : Heap)
deriving DecidableEq, Repr

/-- The copying loop shared by both spawn operations (lines 39-45, 50-55,
178-184, 190-195):
`for (int i = 0; i < n; i++) { dst[off + i] = strdup(src[i]); }`. -/
def dupStrings (src : List String) (dst off : Nat) (h : Heap) : Heap :=
  (List.range src.length).foldl
    (fun h i =>
      let (h1, p) := strdup h (src.getD i "")
      store h1 dst (off + i) (Slot.ptr p))
    h

/-- The release loop of the parent (lines 84-86, 89-91, 229-231, 234-236):
`for (int i = 0; i < n; i++) { free(a[i]); }`. -/
def freeStrings (n a : Nat) (h : Heap) : Heap :=
  (List.range n).foldl (fun h i => free h (load h a i)) h

/-- `Java_com_rk_terminal_LinuxLauncher_nativeExec` (lines 25-95), run on
heap `h0` in a process where `fork()` returned `pid`; `execOk` tells whether
`execve`, if called, replaces the image. -/
def nativeExec (h0 : Heap) (binaryPath : String) (args envp : List String)
    (pid : Int) (execOk : Bool) : Outcome :=
  let argc := args.length
  let (h1, argv) := newArray h0 (argc + 1)
  let h2 := dupStrings args argv 0 h1
  let h3 := store h2 argv argc Slot.null
  let envc := envp.length
  let (h4, envp_c) := newArray h3 (envc + 1)
  let h5 := dupStrings envp envp_c 0 h4
  let h6 := store h5 envp_c envc Slot.null
  if pid < 0 then
    Outcome.returned (-1) h6
  else if pid = 0 then
    let c : ExecCall := ⟨binaryPath, argv, envp_c, h6⟩
    if execOk then Outcome.replaced c else Outcome.exited 1 c h6
  else
    let h7 := freeStrings argc argv h6
    let h8 := deleteArray h7 argv
    let h9 := freeStrings envc envp_c h8
    let h10 := deleteArray h9 envp_c
    Outcome.returned pid h10

/-- `Java_com_rk_terminal_LinuxLauncher_nativeExecWithLinker` (lines
150-240), run on heap `h0` in a process where `fork()` returned `pid`;
`execOk` tells whether `execve`, if called, replaces the image. -/
def nativeExecWithLinker (h0 : Heap) (linkerPath libPath binaryPath : String)
    (args envp : List String) (pid : Int) (execOk : Bool) : Outcome :=
  let originalArgc := args.length
  let argc := originalArgc + 4
  let (h1, argv) := newArray h0 (argc + 1)
  let (h1a, p0) := strdup h1 linkerPath
  let h1b := store h1a argv 0 (Slot.ptr p0)
  let (h1c, p1) := strdup h1b "--library-path"
  let h1d := store h1c argv 1 (Slot.ptr p1)
  let (h1e, p2) := strdup h1d libPath
  let h1f := store h1e argv 2 (Slot.ptr p2)
  let (h1g, p3) := strdup h1f binaryPath
  let h1h := store h1g argv 3 (Slot.ptr p3)
  let h2 := dupStrings args argv 4 h1h
  let h3 := store h2 argv argc Slot.null
  let envc := envp.length
  let (h4, envp_c) := newArray h3 (envc + 1)
  let h5 := dupStrings envp envp_c 0 h4
  let h6 := store h5 envp_c envc Slot.null
  if pid < 0 then
    Outcome.returned (-1) h6
  else if pid = 0 then
    let c : ExecCall := ⟨linkerPath, argv, envp_c, h6⟩
    if execOk then Outcome.replaced c else Outcome.exited 1 c h6
  else
    let h7 := freeStrings argc argv h6
    let h8 := deleteArray h7 argv
    let h9 := freeStrings envc envp_c h8
    let h10 := deleteArray h9 envp_c
    Outcome.returned pid h10

/-! ## Observations on an outcome -/

/-- The value handed back to the Java caller, when control returns to it. -/
def Outcome.returnValue : Outcome → Option Int
  | Outcome.returned ret _ => some ret
  | _ => none

/-- The heap with which control returns to the Java caller. -/
def Outcome.returnHeap : Outcome → Option Heap
  | Outcome.returned _ h => some h
  | _ => none

/-- The `execve` call made by the process, if it made one. -/
def Outcome.execAttempt : Outcome → Option ExecCall
  | Outcome.returned _ _ => none
  | Outcome.replaced c => some c
  | Outcome.exited _ c _ => some c

/-- The wait status word of a process that ended by `_exit`. -/
def Outcome.childStatus : Outcome → Option Nat
  | Outcome.exited code _ _ => some (exitStatusWord code)
  | _ => none

/-- The vector `[linkerPath, "--library-path", libraryPath, binaryPath] ++ argv`. -/
def linkerArgv (linkerPath libPath binaryPath : String) (args : List String) : List String :=
  [linkerPath, "--library-path", libPath, binaryPath] ++ args

/-! ## Closed forms used in the proofs -/

/-- The cells `ptr base, ptr (base+1), ..., ptr (base+n-1)`. -/
def ptrs (base : Nat) : Nat → List Slot
  | 0 => []
  | n + 1 => Slot.ptr base :: ptrs (base + 1) n

/-- The string blocks of a list of strings, in order. -/
def strs (xs : List String) : Heap := xs.map (fun s => some (Block.str s))

/-- The blocks of one marshalled vector whose pointer array sits at address
`base`: the array, whose cells point to the strings that follow it and end
with `nullptr`, then one string block per element. -/
def vecBlocks (base : Nat) (xs : List String) : Heap :=
  some (Block.arr (ptrs (base + 1) xs.length ++ [Slot.null])) :: strs xs

/-- The heap both spawn operations have built when they call `fork`: the
caller's heap `h0`, then the marshalled argument vector `xs`, then the
marshalled environment `envp`. -/
def forkHeap (h0 : Heap) (xs envp : List String) : Heap :=
  h0 ++ vecBlocks h0.length xs ++ vecBlocks (h0.length + (xs.length + 1)) envp

/-! ## Facts about the status macros -/

theorem WTERMSIG_eq_mod (s : Nat) : WTERMSIG s = s % 128 := by
  unfold WTERMSIG
  exact Nat.and_pow_two_sub_one_eq_mod s 7

theorem WTERMSIG_lt (s : Nat) : WTERMSIG s < 128 := by
  rw [WTERMSIG_eq_mod]
  exact Nat.mod_lt _ (by decide)

theorem and_shiftLeft_shiftRight (a b k : Nat) :
    (a &&& (b <<< k)) >>> k = (a >>> k) &&& b := by
  apply Nat.eq_of_testBit_eq
  intro i
  simp [Nat.testBit_shiftRight, Nat.testBit_shiftLeft]

theorem WEXITSTATUS_eq_shift_mask (s : Nat) : WEXITSTATUS s = (s >>> 8) &&& 0xff := by
  unfold WEXITSTATUS
  exact and_shiftLeft_shiftRight s 0xff 8

theorem WEXITSTATUS_le (s : Nat) : WEXITSTATUS s ≤ 255 := by
  rw [WEXITSTATUS_eq_shift_mask]
  have h := Nat.and_pow_two_sub_one_eq_mod (s >>> 8) 8
  have h2 : (s >>> 8) % 2 ^ 8 < 2 ^ 8 := Nat.mod_lt _ (by decide)
  have h3 : (s >>> 8) &&& 0xff = (s >>> 8) % 2 ^ 8 := h
  omega

theorem WIFEXITED_iff (s : Nat) : WIFEXITED s = true ↔ s % 128 = 0 := by
  unfold WIFEXITED
  rw [WTERMSIG_eq_mod]
  simp

theorem WIFSIGNALED_iff (s : Nat) :
    WIFSIGNALED s = true ↔ 1 ≤ s % 128 ∧ s % 128 ≤ 126 := by
  unfold WIFSIGNALED
  rw [WTERMSIG_eq_mod]
  have h : (s + 1) % 2 ^ 32 % 128 = (s + 1) % 128 :=
    Nat.mod_mod_of_dvd _ (by decide)
  rw [h]
  simp only [decide_eq_true_eq]
  omega

/-- The value `nativeWaitFor` returns, by cases on the reply of `waitpid`. -/
theorem nativeWaitFor_fst (k : Kernel) (pid : Int) :
    (nativeWaitFor k pid).1 =
      if (waitpid k pid).1.result < 0 then -1
      else if WIFEXITED (waitpid k pid).1.status then ((WEXITSTATUS (waitpid k pid).1.status : Nat) : Int)
      else if WIFSIGNALED (waitpid k pid).1.status then 128 + ((WTERMSIG (waitpid k pid).1.status : Nat) : Int)
      else -1 := by
  unfold nativeWaitFor
  simp only
  split_ifs <;> rfl

/-- The kernel after `nativeWaitFor`: exactly one `waitpid` call was made. -/
theorem nativeWaitFor_snd (k : Kernel) (pid : Int) :
    (nativeWaitFor k pid).2 = (waitpid k pid).2 := by
  unfold nativeWaitFor
  simp only
  split_ifs <;> rfl

/-- The value returned for a status whose low seven bits are `0`. -/
theorem wait_exited_value (k : Kernel) (pid : Int)
    (hok : 0 ≤ (waitpid k pid).1.result)
    (hlow : (waitpid k pid).1.status &&& 0x7f = 0) :
    (nativeWaitFor k pid).1 = ((WEXITSTATUS (waitpid k pid).1.status : Nat) : Int) := by
  have hex : WIFEXITED (waitpid k pid).1.status = true := by
    unfold WIFEXITED WTERMSIG; simp [hlow]
  rw [nativeWaitFor_fst, if_neg (not_lt.mpr hok), hex]
  simp

/-- The value returned for a status whose low seven bits are in `1..126`. -/
theorem wait_killed_value (k : Kernel) (pid : Int)
    (hok : 0 ≤ (waitpid k pid).1.result)
    (h1 : 1 ≤ (waitpid k pid).1.status &&& 0x7f)
    (h2 : (waitpid k pid).1.status &&& 0x7f ≤ 126) :
    (nativeWaitFor k pid).1 = 128 + (((waitpid k pid).1.status &&& 0x7f : Nat) : Int) := by
  have hm : (waitpid k pid).1.status &&& 0x7f = (waitpid k pid).1.status % 128 :=
    WTERMSIG_eq_mod _
  have hex : WIFEXITED (waitpid k pid).1.status = false := by
    rw [Bool.eq_false_iff, Ne, WIFEXITED_iff]; omega
  have hsig : WIFSIGNALED (waitpid k pid).1.status = true := by
    rw [WIFSIGNALED_iff]; omega
  rw [nativeWaitFor_fst, if_neg (not_lt.mpr hok), hex, hsig]
  simp [WTERMSIG]

/-- The value returned for a status whose low seven bits are `0x7f`. -/
theorem wait_other_value (k : Kernel) (pid : Int)
    (hok : 0 ≤ (waitpid k pid).1.result)
    (h : (waitpid k pid).1.status &&& 0x7f = 127) :
    (nativeWaitFor k pid).1 = -1 := by
  have hm : (waitpid k pid).1.status &&& 0x7f = (waitpid k pid).1.status % 128 :=
    WTERMSIG_eq_mod _
  have hex : WIFEXITED (waitpid k pid).1.status = false := by
    rw [Bool.eq_false_iff, Ne, WIFEXITED_iff]; omega
  have hsig : WIFSIGNALED (waitpid k pid).1.status = false := by
    rw [Bool.eq_false_iff, Ne, WIFSIGNALED_iff]; omega
  rw [nativeWaitFor_fst, if_neg (not_lt.mpr hok), hex, hsig]
  simp

/-! ## The supervisor's contracts -/

/-- C3: when `waitpid` succeeds and reports a process terminated by an
uncaught signal `s` (the low seven bits of the status equal `s`,
`1 ≤ s ≤ 126`; the core-dump bit `0x80` and all higher bits are arbitrary),
`nativeWaitFor` returns exactly `128 + s`. -/
theorem nativeWaitFor_killed (k : Kernel) (pid : Int) (s : Nat)
    (hok : 0 ≤ (waitpid k pid).1.result)
    (hlow : (waitpid k pid).1.status &&& 0x7f = s)
    (h1 : 1 ≤ s) (h2 : s ≤ 126) :
    (nativeWaitFor k pid).1 = 128 + (s : Int) := by
  have hm : (waitpid k pid).1.status % 128 = s := by
    rw [← WTERMSIG_eq_mod]; exact hlow
  have hex : WIFEXITED (waitpid k pid).1.status = false := by
    rw [Bool.eq_false_iff, Ne, WIFEXITED_iff]; omega
  have hsig : WIFSIGNALED (waitpid k pid).1.status = true := by
    rw [WIFSIGNALED_iff]; omega
  have hterm : WTERMSIG (waitpid k pid).1.status = s := hlow
  rw [nativeWaitFor_fst, if_neg (not_lt.mpr hok), hex, hsig, hterm]
  simp

/-- C3, witness: a child killed by SIGKILL (9) yields `128 + 9 = 137`, also
when the core-dump bit is set (status `0x89`). -/
theorem nativeWaitFor_killed_witness :
    (nativeWaitFor (Kernel.const ⟨42, 0x89⟩) 42).1 = 128 + ((9 : Nat) : Int) :=
  nativeWaitFor_killed (Kernel.const ⟨42, 0x89⟩) 42 9
    (by decide) (by decide) (by decide) (by decide)

/-- C4: when `waitpid` succeeds and reports a process that ran to completion
(the low seven bits of the status are `0`), `nativeWaitFor` returns
`(status >> 8) & 0xff`, a value in `0..255`. -/
theorem nativeWaitFor_exited (k : Kernel) (pid : Int)
    (hok : 0 ≤ (waitpid k pid).1.result)
    (hlow : (waitpid k pid).1.status &&& 0x7f = 0) :
    (nativeWaitFor k pid).1 = ((((waitpid k pid).1.status >>> 8) &&& 0xff : Nat) : Int)
      ∧ 0 ≤ (nativeWaitFor k pid).1 ∧ (nativeWaitFor k pid).1 ≤ 255 := by
  have hex : WIFEXITED (waitpid k pid).1.status = true := by
    unfold WIFEXITED WTERMSIG; simp [hlow]
  have hret : (nativeWaitFor k pid).1 = ((WEXITSTATUS (waitpid k pid).1.status : Nat) : Int) := by
    rw [nativeWaitFor_fst, if_neg (not_lt.mpr hok), hex]; simp
  have hle := WEXITSTATUS_le (waitpid k pid).1.status
  refine ⟨?_, ?_, ?_⟩
  · rw [hret, WEXITSTATUS_eq_shift_mask]
  · rw [hret]; exact Int.natCast_nonneg _
  · rw [hret]; exact_mod_cast hle

/-- C4, witness: a child that exits with code 1 (`/bin/false`, status `0x100`)
yields 1. -/
theorem nativeWaitFor_exited_witness :
    (nativeWaitFor (Kernel.const ⟨42, 0x100⟩) 42).1 = (((0x100 >>> 8) &&& 0xff : Nat) : Int)
      ∧ 0 ≤ (nativeWaitFor (Kernel.const ⟨42, 0x100⟩) 42).1
      ∧ (nativeWaitFor (Kernel.const ⟨42, 0x100⟩) 42).1 ≤ 255 :=
  nativeWaitFor_exited (Kernel.const ⟨42, 0x100⟩) 42 (by decide) (by decide)

/-- C5, counterexample: a process that ran to completion with exit code 137
(status `0x8900`) and a process killed by signal 9 (status `9`) both make
`nativeWaitFor` return `128 + 9`; the return value alone does not tell them
apart. -/
theorem exit_code_collides_with_signal :
    WIFEXITED 0x8900 = true ∧ WIFSIGNALED 9 = true ∧ WTERMSIG 9 = 9
      ∧ (nativeWaitFor (Kernel.const ⟨42, 0x8900⟩) 42).1 = 128 + 9
      ∧ (nativeWaitFor (Kernel.const ⟨42, 9⟩) 42).1 = 128 + 9 := by
  decide

/-- C5, amended: for a process that ran to completion (low seven bits of the
status `0`) and a process whose status carries a signal `s`, `1 ≤ s < 128`, in
its low seven bits, the two values `nativeWaitFor` returns are equal exactly
when the exit value `c` lies in `129..254` and `s = c - 128`; outside
`129..254` the kill encoding is disjoint from the exit codes.  Every `c` in
`129..254` is indeed returned both for an exit with code `c` and for a kill
by signal `c - 128`. -/
theorem killed_code_eq_exit_code_iff (k1 k2 : Kernel) (pid1 pid2 : Int) (s : Nat)
    (hok1 : 0 ≤ (waitpid k1 pid1).1.result)
    (hok2 : 0 ≤ (waitpid k2 pid2).1.result)
    (hex : (waitpid k1 pid1).1.status &&& 0x7f = 0)
    (hs1 : 1 ≤ s) (hs2 : s < 128)
    (hsig : (waitpid k2 pid2).1.status &&& 0x7f = s) :
    ((nativeWaitFor k1 pid1).1 = (nativeWaitFor k2 pid2).1
        ↔ 129 ≤ (nativeWaitFor k1 pid1).1 ∧ (nativeWaitFor k1 pid1).1 ≤ 254
            ∧ (s : Int) = (nativeWaitFor k1 pid1).1 - 128)
      ∧ ∀ c : Nat, 129 ≤ c → c ≤ 254 →
          (nativeWaitFor (Kernel.const ⟨1, exitStatusWord c⟩) 1).1 = (c : Int)
            ∧ (nativeWaitFor (Kernel.const ⟨1, c - 128⟩) 1).1 = (c : Int) := by
  have hv := wait_exited_value k1 pid1 hok1 hex
  have hle := WEXITSTATUS_le (waitpid k1 pid1).1.status
  have hnn : 0 ≤ (nativeWaitFor k1 pid1).1 := by
    rw [hv]; exact Int.natCast_nonneg _
  have h255 : (nativeWaitFor k1 pid1).1 ≤ 255 := by
    rw [hv]; exact_mod_cast hle
  refine ⟨?_, ?_⟩
  · by_cases h127 : s ≤ 126
    · rw [wait_killed_value k2 pid2 hok2 (by rw [hsig]; exact hs1) (by rw [hsig]; exact h127),
        hsig]
      omega
    · rw [wait_other_value k2 pid2 hok2 (by rw [hsig]; omega)]
      omega
  · intro c hc1 hc2
    have hmask : c &&& 0xff = c := by
      have h := Nat.and_pow_two_sub_one_eq_mod c 8
      have h2 : c &&& 0xff = c % 2 ^ 8 := h
      rw [h2]; exact Nat.mod_eq_of_lt (by omega)
    have hword : exitStatusWord c = c * 256 := by
      unfold exitStatusWord
      rw [hmask, Nat.shiftLeft_eq]
    have hres : ∀ st : Nat, (0 : Int) ≤ (waitpid (Kernel.const ⟨1, st⟩) 1).1.result := by
      intro st; show (0 : Int) ≤ 1; decide
    have hst : ∀ st : Nat, (waitpid (Kernel.const ⟨1, st⟩) 1).1.status = st := fun _ => rfl
    have hlowE : (c * 256) &&& 0x7f = 0 := by
      have h := WTERMSIG_eq_mod (c * 256)
      unfold WTERMSIG at h
      rw [h]; omega
    have hlowS : (c - 128) &&& 0x7f = c - 128 := by
      have h := WTERMSIG_eq_mod (c - 128)
      unfold WTERMSIG at h
      rw [h]; omega
    constructor
    · rw [wait_exited_value _ 1 (hres _) (by rw [hst, hword]; exact hlowE), hst, hword,
        WEXITSTATUS_eq_shift_mask, Nat.shiftRight_eq_div_pow]
      have hd : c * 256 / 2 ^ 8 = c := by omega
      rw [hd, hmask]
    · rw [wait_killed_value _ 1 (hres _) (by rw [hst, hlowS]; omega)
        (by rw [hst, hlowS]; omega), hst, hlowS]
      omega

/-- C5, witness: exit code 1 (status `0x100`) against SIGKILL (status `9`). -/
theorem killed_code_eq_exit_code_iff_witness :
    ((nativeWaitFor (Kernel.const ⟨42, 0x100⟩) 42).1 = (nativeWaitFor (Kernel.const ⟨43, 9⟩) 43).1
        ↔ 129 ≤ (nativeWaitFor (Kernel.const ⟨42, 0x100⟩) 42).1
            ∧ (nativeWaitFor (Kernel.const ⟨42, 0x100⟩) 42).1 ≤ 254
            ∧ ((9 : Nat) : Int) = (nativeWaitFor (Kernel.const ⟨42, 0x100⟩) 42).1 - 128)
      ∧ ∀ c : Nat, 129 ≤ c → c ≤ 254 →
          (nativeWaitFor (Kernel.const ⟨1, exitStatusWord c⟩) 1).1 = (c : Int)
            ∧ (nativeWaitFor (Kernel.const ⟨1, c - 128⟩) 1).1 = (c : Int) :=
  killed_code_eq_exit_code_iff (Kernel.const ⟨42, 0x100⟩) (Kernel.const ⟨43, 9⟩) 42 43 9
    (by decide) (by decide) (by decide) (by decide) (by decide) (by decide)

/-- C8, counterexample: a successful `waitpid` that reports the status word
`0x137f` (a child stopped by signal 19, as reported for a traced child) makes
`nativeWaitFor` return the failure sentinel `-1`; the word is neither an exit
nor a kill. -/
theorem stopped_status_returns_sentinel :
    0 ≤ (waitpid (Kernel.const ⟨42, 0x137f⟩) 42).1.result
      ∧ WIFEXITED 0x137f = false ∧ WIFSIGNALED 0x137f = false
      ∧ (nativeWaitFor (Kernel.const ⟨42, 0x137f⟩) 42).1 = -1 := by
  decide

/-- C8, amended: for every status word of a successful `waitpid`,
`nativeWaitFor` returns the exit code `(status >> 8) & 0xff`, in `0..255`,
when the low seven bits are `0`; it returns `128 + signal` when the low seven
bits are a signal number in `1..126`; and it returns `-1` when the low seven
bits are `0x7f` (a stopped or continued child).  So after a successful wait
the result is `-1` exactly for the words whose low seven bits are `0x7f`. -/
theorem nativeWaitFor_status_cases (k : Kernel) (pid : Int)
    (hok : 0 ≤ (waitpid k pid).1.result) :
    (((waitpid k pid).1.status &&& 0x7f = 0
          ∧ (nativeWaitFor k pid).1 = ((((waitpid k pid).1.status >>> 8) &&& 0xff : Nat) : Int)
          ∧ 0 ≤ (nativeWaitFor k pid).1 ∧ (nativeWaitFor k pid).1 ≤ 255)
        ∨ (1 ≤ (waitpid k pid).1.status &&& 0x7f ∧ (waitpid k pid).1.status &&& 0x7f ≤ 126
          ∧ (nativeWaitFor k pid).1 = 128 + (((waitpid k pid).1.status &&& 0x7f : Nat) : Int))
        ∨ ((waitpid k pid).1.status &&& 0x7f = 0x7f ∧ (nativeWaitFor k pid).1 = -1))
      ∧ ((nativeWaitFor k pid).1 = -1 ↔ (waitpid k pid).1.status &&& 0x7f = 0x7f) := by
  have hlt : (waitpid k pid).1.status &&& 0x7f < 128 := WTERMSIG_lt _
  have hle := WEXITSTATUS_le (waitpid k pid).1.status
  by_cases h0 : (waitpid k pid).1.status &&& 0x7f = 0
  · have h := wait_exited_value k pid hok h0
    have hnn : 0 ≤ (nativeWaitFor k pid).1 := by
      rw [h]; exact Int.natCast_nonneg _
    have h255 : (nativeWaitFor k pid).1 ≤ 255 := by
      rw [h]; exact_mod_cast hle
    refine ⟨Or.inl ⟨h0, ?_, hnn, h255⟩, ?_⟩
    · rw [h, WEXITSTATUS_eq_shift_mask]
    · constructor
      · intro hm; omega
      · intro h7f; omega
  · by_cases h7f : (waitpid k pid).1.status &&& 0x7f = 0x7f
    · have h := wait_other_value k pid hok h7f
      exact ⟨Or.inr (Or.inr ⟨h7f, h⟩), ⟨fun _ => h7f, fun _ => h⟩⟩
    · have h1 : 1 ≤ (waitpid k pid).1.status &&& 0x7f := by omega
      have h2 : (waitpid k pid).1.status &&& 0x7f ≤ 126 := by omega
      have h := wait_killed_value k pid hok h1 h2
      refine ⟨Or.inr (Or.inl ⟨h1, h2, h⟩), ?_⟩
      constructor
      · intro hm; omega
      · intro h'; exact absurd h' h7f

/-- C8, witness: the status of a child killed by SIGSEGV with a core dump
(`0x8b`). -/
theorem nativeWaitFor_status_cases_witness :
    (((waitpid (Kernel.const ⟨42, 0x8b⟩) 42).1.status &&& 0x7f = 0
          ∧ (nativeWaitFor (Kernel.const ⟨42, 0x8b⟩) 42).1
              = ((((waitpid (Kernel.const ⟨42, 0x8b⟩) 42).1.status >>> 8) &&& 0xff : Nat) : Int)
          ∧ 0 ≤ (nativeWaitFor (Kernel.const ⟨42, 0x8b⟩) 42).1
          ∧ (nativeWaitFor (Kernel.const ⟨42, 0x8b⟩) 42).1 ≤ 255)
        ∨ (1 ≤ (waitpid (Kernel.const ⟨42, 0x8b⟩) 42).1.status &&& 0x7f
          ∧ (waitpid (Kernel.const ⟨42, 0x8b⟩) 42).1.status &&& 0x7f ≤ 126
          ∧ (nativeWaitFor (Kernel.const ⟨42, 0x8b⟩) 42).1
              = 128 + (((waitpid (Kernel.const ⟨42, 0x8b⟩) 42).1.status &&& 0x7f : Nat) : Int))
        ∨ ((waitpid (Kernel.const ⟨42, 0x8b⟩) 42).1.status &&& 0x7f = 0x7f
          ∧ (nativeWaitFor (Kernel.const ⟨42, 0x8b⟩) 42).1 = -1))
      ∧ ((nativeWaitFor (Kernel.const ⟨42, 0x8b⟩) 42).1 = -1
          ↔ (waitpid (Kernel.const ⟨42, 0x8b⟩) 42).1.status &&& 0x7f = 0x7f) :=
  nativeWaitFor_status_cases (Kernel.const ⟨42, 0x8b⟩) 42 (by decide)

/-- C10: when `waitpid` fails (negative result), `nativeWaitFor` returns `-1`
whatever the status word holds, and it has called `waitpid` exactly once. -/
theorem nativeWaitFor_wait_failure (k : Kernel) (pid : Int)
    (hfail : (waitpid k pid).1.result < 0) :
    (nativeWaitFor k pid).1 = -1 ∧ (nativeWaitFor k pid).2.calls = k.calls + 1 := by
  refine ⟨?_, ?_⟩
  · rw [nativeWaitFor_fst, if_pos hfail]
  · rw [nativeWaitFor_snd]; rfl

/-- C10, witness: `waitpid` fails while the status word holds `0x100`, which
would decode to exit code 1. -/
theorem nativeWaitFor_wait_failure_witness :
    (nativeWaitFor (Kernel.const ⟨-1, 0x100⟩) 42).1 = -1
      ∧ (nativeWaitFor (Kernel.const ⟨-1, 0x100⟩) 42).2.calls
          = (Kernel.const ⟨-1, 0x100⟩).calls + 1 :=
  nativeWaitFor_wait_failure (Kernel.const ⟨-1, 0x100⟩) 42 (by decide)

/-! ## Facts about the heap -/

theorem ptrs_length (base n : Nat) : (ptrs base n).length = n := by
  induction n generalizing base with
  | zero => rfl
  | succ n ih => simp [ptrs, ih]

theorem ptrs_succ_right (base n : Nat) :
    ptrs base (n + 1) = ptrs base n ++ [Slot.ptr (base + n)] := by
  induction n generalizing base with
  | zero => simp [ptrs]
  | succ n ih =>
    have h := ih (base + 1)
    have e : base + 1 + n = base + (n + 1) := by omega
    rw [e] at h
    calc ptrs base (n + 1 + 1)
        = Slot.ptr base :: ptrs (base + 1) (n + 1) := rfl
      _ = Slot.ptr base :: (ptrs (base + 1) n ++ [Slot.ptr (base + (n + 1))]) := by rw [h]
      _ = ptrs base (n + 1) ++ [Slot.ptr (base + (n + 1))] := rfl

theorem ptrs_getElem? (base n k : Nat) (hk : k < n) :
    (ptrs base n)[k]? = some (Slot.ptr (base + k)) := by
  induction n generalizing base k with
  | zero => omega
  | succ n ih =>
    cases k with
    | zero => simp [ptrs]
    | succ k =>
      have h := ih (base + 1) k (by omega)
      have e : base + 1 + k = base + (k + 1) := by omega
      rw [e] at h
      simpa [ptrs] using h

theorem strs_length (xs : List String) : (strs xs).length = xs.length := by
  simp [strs]

theorem vecBlocks_length (base : Nat) (xs : List String) :
    (vecBlocks base xs).length = xs.length + 1 := by
  simp [vecBlocks, strs_length]

theorem getElem?_mid (pre post : Heap) (x : Option Block) (a : Nat) (ha : a = pre.length) :
    (pre ++ x :: post)[a]? = some x := by
  subst ha
  rw [List.getElem?_append_right (Nat.le_refl _)]
  simp

theorem set_mid (pre post : Heap) (x y : Option Block) (a : Nat) (ha : a = pre.length) :
    (pre ++ x :: post).set a y = pre ++ y :: post := by
  subst ha
  simp

theorem store_mid (pre post : Heap) (cs : List Slot) (a i : Nat) (v : Slot)
    (ha : a = pre.length) :
    store (pre ++ some (Block.arr cs) :: post) a i v
      = pre ++ some (Block.arr (cs.set i v)) :: post := by
  unfold store
  rw [getElem?_mid pre post _ a ha]
  exact set_mid pre post _ _ a ha

theorem load_mid (pre post : Heap) (cs : List Slot) (a i : Nat) (ha : a = pre.length) :
    load (pre ++ some (Block.arr cs) :: post) a i = cs.getD i Slot.uninit := by
  unfold load
  rw [getElem?_mid pre post _ a ha]

theorem cellsAt_mid (pre post : Heap) (cs : List Slot) (a : Nat) (ha : a = pre.length) :
    cellsAt (pre ++ some (Block.arr cs) :: post) a = some cs := by
  unfold cellsAt
  rw [getElem?_mid pre post _ a ha]

theorem take_succ_getD (src : List String) (k : Nat) (hk : k < src.length) :
    src.take (k + 1) = src.take k ++ [src.getD k ""] := by
  rw [List.take_succ, List.getD_eq_getElem?_getD, List.getElem?_eq_getElem hk]
  rfl

theorem set_fill (front : List Slot) (B k m : Nat) (v : Slot) (hk : k < m) :
    (front ++ ptrs B k ++ List.replicate (m - k) Slot.uninit).set (front.length + k) v
      = front ++ ptrs B k ++ v :: List.replicate (m - (k + 1)) Slot.uninit := by
  have e : m - k = (m - (k + 1)) + 1 := by omega
  rw [e, List.replicate_succ]
  have hl : (front ++ ptrs B k).length = front.length + k := by
    simp [ptrs_length]
  rw [List.set_append_right _ _ (by rw [hl]), hl, Nat.sub_self]
  rfl

/-- The copying loop after `k` rounds. -/
theorem dupStrings_rounds (src : List String) (pre post : Heap) (front : List Slot)
    (m a off : Nat) (ha : a = pre.length) (hoff : off = front.length)
    (hm : src.length ≤ m) (k : Nat) (hk : k ≤ src.length) :
    (List.range k).foldl
        (fun h i =>
          let (h1, p) := strdup h (src.getD i "")
          store h1 a (off + i) (Slot.ptr p))
        (pre ++ some (Block.arr (front ++ List.replicate m Slot.uninit)) :: post)
      = pre ++ some (Block.arr (front ++ ptrs (pre.length + 1 + post.length) k
            ++ List.replicate (m - k) Slot.uninit))
          :: (post ++ strs (src.take k)) := by
  induction k with
  | zero => simp [ptrs, strs]
  | succ k ih =>
    rw [List.range_succ, List.foldl_append, ih (by omega)]
    simp only [List.foldl_cons, List.foldl_nil, strdup, alloc]
    have happ : (pre ++ some (Block.arr (front ++ ptrs (pre.length + 1 + post.length) k
            ++ List.replicate (m - k) Slot.uninit)) :: (post ++ strs (src.take k)))
          ++ [some (Block.str (src.getD k ""))]
        = pre ++ some (Block.arr (front ++ ptrs (pre.length + 1 + post.length) k
            ++ List.replicate (m - k) Slot.uninit))
          :: (post ++ strs (src.take (k + 1))) := by
      rw [take_succ_getD src k (by omega)]
      simp [strs]
    have hlen : (pre ++ some (Block.arr (front ++ ptrs (pre.length + 1 + post.length) k
            ++ List.replicate (m - k) Slot.uninit)) :: (post ++ strs (src.take k))).length
        = pre.length + 1 + post.length + k := by
      simp [strs_length, List.length_take]
      omega
    rw [happ, hlen, store_mid _ _ _ _ _ _ ha, hoff, set_fill _ _ _ _ _ (by omega),
      ptrs_succ_right]
    simp

/-- The copying loop, run to its end on an array whose cells from `off` on
are still unwritten. -/
theorem dupStrings_mid (src : List String) (pre post : Heap) (front : List Slot)
    (m a off : Nat) (ha : a = pre.length) (hoff : off = front.length)
    (hm : src.length ≤ m) :
    dupStrings src a off (pre ++ some (Block.arr (front ++ List.replicate m Slot.uninit)) :: post)
      = pre ++ some (Block.arr (front ++ ptrs (pre.length + 1 + post.length) src.length
            ++ List.replicate (m - src.length) Slot.uninit))
          :: (post ++ strs src) := by
  unfold dupStrings
  rw [dupStrings_rounds src pre post front m a off ha hoff hm src.length (Nat.le_refl _),
    List.take_length]

theorem ptrs_add (base j n : Nat) :
    ptrs base (j + n) = ptrs base j ++ ptrs (base + j) n := by
  induction n with
  | zero => simp [ptrs]
  | succ n ih =>
    rw [← Nat.add_assoc, ptrs_succ_right, ih, ptrs_succ_right, Nat.add_assoc base j n]
    simp

theorem set_last (cs : List Slot) (n : Nat) (u v : Slot) (hn : n = cs.length) :
    (cs ++ [u]).set n v = cs ++ [v] := by
  subst hn
  simp

/-- Marshalling one vector (lines 37-46 and 48-56): a fresh array of
`n + 1` cells, the copying loop, then the `nullptr` terminator. -/
theorem marshal_vec (h : Heap) (xs : List String) :
    store (dupStrings xs h.length 0 (newArray h (xs.length + 1)).1) h.length xs.length Slot.null
      = h ++ vecBlocks h.length xs := by
  have h1 : (newArray h (xs.length + 1)).1
      = h ++ some (Block.arr ([] ++ List.replicate (xs.length + 1) Slot.uninit)) :: [] := by
    simp [newArray, alloc]
  rw [h1, dupStrings_mid xs h [] [] (xs.length + 1) h.length 0 rfl rfl (by omega),
    store_mid _ _ _ _ _ _ rfl]
  have e : xs.length + 1 - xs.length = 1 := by omega
  rw [e]
  have hs : ([] ++ ptrs (h.length + 1 + ([] : Heap).length) xs.length
        ++ List.replicate 1 Slot.uninit).set xs.length Slot.null
      = ptrs (h.length + 1) xs.length ++ [Slot.null] := by
    simp only [List.nil_append, List.length_nil, Nat.add_zero, List.replicate_one]
    exact set_last _ _ _ _ (ptrs_length _ _).symm
  rw [hs]
  simp [vecBlocks]

theorem store_at (pre post : Heap) (cs : List Slot) (i : Nat) (v : Slot) :
    store (pre ++ some (Block.arr cs) :: post) pre.length i v
      = pre ++ some (Block.arr (cs.set i v)) :: post :=
  store_mid pre post cs pre.length i v rfl

theorem store_length (h : Heap) (a i : Nat) (v : Slot) : (store h a i v).length = h.length := by
  unfold store
  split <;> simp

/-- The heap of `nativeExecWithLinker` once the four fixed arguments are in
place (lines 171-176). -/
theorem linker_head (h : Heap) (l lib b : String) (m : Nat) :
    store (store (store (store
        (h ++ [some (Block.arr (List.replicate (m + 4 + 1) Slot.uninit))]
          ++ [some (Block.str l)])
        h.length 0 (Slot.ptr (h.length + 1))
          ++ [some (Block.str "--library-path")])
        h.length 1 (Slot.ptr (h.length + 1 + 1))
          ++ [some (Block.str lib)])
        h.length 2 (Slot.ptr (h.length + 1 + 1 + 1))
          ++ [some (Block.str b)])
        h.length 3 (Slot.ptr (h.length + 1 + 1 + 1 + 1))
      = h ++ some (Block.arr (ptrs (h.length + 1) 4 ++ List.replicate (m + 1) Slot.uninit))
          :: strs [l, "--library-path", lib, b] := by
  simp only [List.append_assoc, List.singleton_append,
    List.cons_append, List.nil_append, store_at, List.replicate_succ, List.set_cons_zero,
    List.set_cons_succ, ptrs, strs, List.map_cons, List.map_nil]

theorem linkerArgv_length (l lib b : String) (args : List String) :
    (linkerArgv l lib b args).length = 4 + args.length := by
  simp [linkerArgv]
  omega

/-- Marshalling the synthesized argument vector (lines 169-185). -/
theorem marshal_linker_vec (h : Heap) (l lib b : String) (args : List String) :
    store (dupStrings args h.length 4
        (store (store (store (store
          (h ++ [some (Block.arr (List.replicate (args.length + 4 + 1) Slot.uninit))]
            ++ [some (Block.str l)])
          h.length 0 (Slot.ptr (h.length + 1))
            ++ [some (Block.str "--library-path")])
          h.length 1 (Slot.ptr (h.length + 1 + 1))
            ++ [some (Block.str lib)])
          h.length 2 (Slot.ptr (h.length + 1 + 1 + 1))
            ++ [some (Block.str b)])
          h.length 3 (Slot.ptr (h.length + 1 + 1 + 1 + 1))))
        h.length (args.length + 4) Slot.null
      = h ++ vecBlocks h.length (linkerArgv l lib b args) := by
  rw [linker_head,
    dupStrings_mid args h _ (ptrs (h.length + 1) 4) (args.length + 1) h.length 4 rfl rfl
      (by omega),
    store_at]
  have e : args.length + 1 - args.length = 1 := by omega
  have hl : (strs [l, "--library-path", lib, b]).length = 4 := rfl
  rw [e, hl, List.replicate_one, ← ptrs_add,
    set_last _ _ _ _ (by rw [ptrs_length]; omega)]
  simp only [vecBlocks, linkerArgv_length]
  simp [linkerArgv, strs]

theorem set_after (pre L : Heap) (x y : Option Block) (j : Nat) :
    (pre ++ x :: L).set (pre.length + 1 + j) y = pre ++ x :: L.set j y := by
  rw [List.set_append_right _ _ (by omega)]
  have e : pre.length + 1 + j - pre.length = j + 1 := by omega
  rw [e]
  rfl

theorem set_tombstone (S Q : Heap) (k : Nat) (hk : k < S.length) :
    (List.replicate k none ++ (S.drop k ++ Q)).set k none
      = List.replicate (k + 1) none ++ (S.drop (k + 1) ++ Q) := by
  rw [List.set_append_right _ _ (by simp), List.length_replicate, Nat.sub_self,
    List.drop_eq_getElem_cons hk, List.replicate_succ']
  simp only [List.cons_append, List.set_cons_zero, List.append_assoc, List.singleton_append,
    List.nil_append]

/-- The release loop after `k` rounds. -/
theorem freeStrings_rounds (pre S Q : Heap) (tail : List Slot) (n a : Nat)
    (ha : a = pre.length) (hS : S.length = n) (k : Nat) (hk : k ≤ n) :
    (List.range k).foldl (fun h i => free h (load h a i))
        (pre ++ some (Block.arr (ptrs (pre.length + 1) n ++ tail)) :: (S ++ Q))
      = pre ++ some (Block.arr (ptrs (pre.length + 1) n ++ tail))
          :: (List.replicate k none ++ (S.drop k ++ Q)) := by
  induction k with
  | zero => simp
  | succ k ih =>
    rw [List.range_succ, List.foldl_append, ih (by omega)]
    simp only [List.foldl_cons, List.foldl_nil]
    have hcell : (ptrs (pre.length + 1) n ++ tail).getD k Slot.uninit
        = Slot.ptr (pre.length + 1 + k) := by
      rw [List.getD_eq_getElem?_getD,
        List.getElem?_append_left (by rw [ptrs_length]; omega),
        ptrs_getElem? _ _ _ (by omega)]
      rfl
    rw [load_mid _ _ _ _ _ ha, hcell]
    simp only [free]
    rw [set_after, set_tombstone S Q k (by omega)]

/-- The release loop, run to its end: every string block the array points to
is released. -/
theorem freeStrings_mid (pre S Q : Heap) (tail : List Slot) (n a : Nat)
    (ha : a = pre.length) (hS : S.length = n) :
    freeStrings n a (pre ++ some (Block.arr (ptrs (pre.length + 1) n ++ tail)) :: (S ++ Q))
      = pre ++ some (Block.arr (ptrs (pre.length + 1) n ++ tail))
          :: (List.replicate n none ++ Q) := by
  unfold freeStrings
  rw [freeStrings_rounds pre S Q tail n a ha hS n (Nat.le_refl _)]
  have e : S.drop n = [] := by
    rw [← hS]; exact List.drop_length S
  rw [e]
  simp

/-- Releasing one marshalled vector (lines 84-87 and 89-92): the release loop
followed by `delete[]` leaves only tombstones. -/
theorem release_vec (pre Q : Heap) (xs : List String) :
    deleteArray (freeStrings xs.length pre.length (pre ++ vecBlocks pre.length xs ++ Q)) pre.length
      = pre ++ List.replicate (xs.length + 1) none ++ Q := by
  have h1 : pre ++ vecBlocks pre.length xs ++ Q
      = pre ++ some (Block.arr (ptrs (pre.length + 1) xs.length ++ [Slot.null]))
          :: (strs xs ++ Q) := by
    simp [vecBlocks]
  rw [h1, freeStrings_mid pre (strs xs) Q [Slot.null] xs.length pre.length rfl (strs_length xs)]
  unfold deleteArray
  rw [set_mid _ _ _ _ _ rfl, List.replicate_succ]
  simp

theorem release_vec_at (pre Q : Heap) (xs : List String) (a : Nat) (ha : a = pre.length) :
    deleteArray (freeStrings xs.length a (pre ++ vecBlocks a xs ++ Q)) a
      = pre ++ List.replicate (xs.length + 1) none ++ Q := by
  subst ha
  exact release_vec pre Q xs

theorem marshal_vec_at (h : Heap) (xs : List String) (a : Nat) (ha : a = h.length) :
    store (dupStrings xs a 0 (h ++ [some (Block.arr (List.replicate (xs.length + 1) Slot.uninit))]))
        a xs.length Slot.null
      = h ++ vecBlocks a xs := by
  subst ha
  exact marshal_vec h xs

/-- The whole of `nativeExec`, in closed form. -/
theorem nativeExec_eq (h0 : Heap) (binaryPath : String) (args envp : List String)
    (pid : Int) (execOk : Bool) :
    nativeExec h0 binaryPath args envp pid execOk
      = if pid < 0 then
          Outcome.returned (-1) (forkHeap h0 args envp)
        else if pid = 0 then
          if execOk then
            Outcome.replaced
              ⟨binaryPath, h0.length, h0.length + (args.length + 1), forkHeap h0 args envp⟩
          else
            Outcome.exited 1
              ⟨binaryPath, h0.length, h0.length + (args.length + 1), forkHeap h0 args envp⟩
              (forkHeap h0 args envp)
        else
          Outcome.returned pid
            (h0 ++ List.replicate (args.length + 1) none
              ++ List.replicate (envp.length + 1) none) := by
  have hlen : (h0 ++ vecBlocks h0.length args).length = h0.length + (args.length + 1) := by
    simp [vecBlocks_length]
  unfold nativeExec
  simp only [newArray, alloc]
  rw [marshal_vec_at h0 args h0.length rfl, hlen,
    marshal_vec_at (h0 ++ vecBlocks h0.length args) envp _ hlen.symm]
  have hrel : deleteArray (freeStrings envp.length (h0.length + (args.length + 1))
        (deleteArray (freeStrings args.length h0.length
          (h0 ++ vecBlocks h0.length args ++ vecBlocks (h0.length + (args.length + 1)) envp))
          h0.length)) (h0.length + (args.length + 1))
      = h0 ++ List.replicate (args.length + 1) none
          ++ List.replicate (envp.length + 1) none := by
    rw [release_vec_at h0 _ args h0.length rfl]
    have h := release_vec_at (h0 ++ List.replicate (args.length + 1) none) [] envp
      (h0.length + (args.length + 1)) (by simp)
    simp only [List.append_nil] at h
    exact h
  rw [hrel]
  rfl

/-- The whole of `nativeExecWithLinker`, in closed form. -/
theorem nativeExecWithLinker_eq (h0 : Heap) (l lib b : String) (args envp : List String)
    (pid : Int) (execOk : Bool) :
    nativeExecWithLinker h0 l lib b args envp pid execOk
      = if pid < 0 then
          Outcome.returned (-1) (forkHeap h0 (linkerArgv l lib b args) envp)
        else if pid = 0 then
          if execOk then
            Outcome.replaced
              ⟨l, h0.length, h0.length + ((linkerArgv l lib b args).length + 1),
                forkHeap h0 (linkerArgv l lib b args) envp⟩
          else
            Outcome.exited 1
              ⟨l, h0.length, h0.length + ((linkerArgv l lib b args).length + 1),
                forkHeap h0 (linkerArgv l lib b args) envp⟩
              (forkHeap h0 (linkerArgv l lib b args) envp)
        else
          Outcome.returned pid
            (h0 ++ List.replicate ((linkerArgv l lib b args).length + 1) none
              ++ List.replicate (envp.length + 1) none) := by
  have hlen : (h0 ++ vecBlocks h0.length (linkerArgv l lib b args)).length
      = h0.length + ((linkerArgv l lib b args).length + 1) := by
    simp [vecBlocks_length]
  have hargc : args.length + 4 = (linkerArgv l lib b args).length := by
    rw [linkerArgv_length]; omega
  unfold nativeExecWithLinker
  simp only [newArray, alloc, strdup, store_length, List.length_append, List.length_singleton]
  have hD := congrArg List.length (marshal_linker_vec h0 l lib b args)
  rw [store_length, hlen] at hD
  rw [marshal_linker_vec h0 l lib b args, hD,
    marshal_vec_at (h0 ++ vecBlocks h0.length (linkerArgv l lib b args)) envp _ hlen.symm,
    hargc]
  have hrel : deleteArray (freeStrings envp.length
        (h0.length + ((linkerArgv l lib b args).length + 1))
        (deleteArray (freeStrings (linkerArgv l lib b args).length h0.length
          (h0 ++ vecBlocks h0.length (linkerArgv l lib b args)
            ++ vecBlocks (h0.length + ((linkerArgv l lib b args).length + 1)) envp))
          h0.length)) (h0.length + ((linkerArgv l lib b args).length + 1))
      = h0 ++ List.replicate ((linkerArgv l lib b args).length + 1) none
          ++ List.replicate (envp.length + 1) none := by
    rw [release_vec_at h0 _ (linkerArgv l lib b args) h0.length rfl]
    have h := release_vec_at (h0 ++ List.replicate ((linkerArgv l lib b args).length + 1) none)
      [] envp (h0.length + ((linkerArgv l lib b args).length + 1)) (by simp)
    simp only [List.append_nil] at h
    exact h
  rw [hrel]
  rfl

/-! ## Facts about reading a vector -/

/-- What a successful read tells about the cells: the cell after the last
string read is `nullptr`, and each cell before it points to the live string
read at that position. -/
theorem readCells_spec (H : Heap) (cells : List Slot) (L : List String)
    (h : readCells H cells = some L) :
    cells[L.length]? = some Slot.null
      ∧ ∀ i, i < L.length →
          ∃ p, cells[i]? = some (Slot.ptr p) ∧ cstrAt H (Slot.ptr p) = L[i]? := by
  induction cells generalizing L with
  | nil => simp [readCells] at h
  | cons c cs ih =>
    cases c with
    | uninit => simp [readCells, cstrAt] at h
    | null =>
      simp only [readCells, Option.some.injEq] at h
      subst h
      exact ⟨by simp, fun i hi => absurd hi (Nat.not_lt_zero i)⟩
    | ptr p =>
      simp only [readCells] at h
      cases hs : cstrAt H (Slot.ptr p) with
      | none => simp [hs] at h
      | some s =>
        cases hr : readCells H cs with
        | none => simp [hs, hr] at h
        | some r =>
          simp only [hs, hr, Option.some.injEq] at h
          subst h
          obtain ⟨h1, h2⟩ := ih r hr
          refine ⟨by simpa using h1, ?_⟩
          intro i hi
          cases i with
          | zero => exact ⟨p, by simp, by simpa using hs⟩
          | succ i =>
            obtain ⟨q, hq1, hq2⟩ := h2 i (by simpa using hi)
            exact ⟨q, by simpa using hq1, by simpa using hq2⟩

theorem readCells_ptrs (P post : Heap) (xs : List String) (base : Nat)
    (hb : base = P.length) :
    readCells (P ++ strs xs ++ post) (ptrs base xs.length ++ [Slot.null]) = some xs := by
  induction xs generalizing P base with
  | nil => rfl
  | cons x t ih =>
    have hH : P ++ strs (x :: t) ++ post = (P ++ [some (Block.str x)]) ++ strs t ++ post := by
      simp [strs]
    have hrest := ih (P ++ [some (Block.str x)]) (base + 1) (by simp [hb])
    rw [← hH] at hrest
    have hlook : (P ++ strs (x :: t) ++ post)[base]? = some (some (Block.str x)) := by
      have e : P ++ strs (x :: t) ++ post = P ++ some (Block.str x) :: (strs t ++ post) := by
        simp [strs]
      rw [e]
      exact getElem?_mid P _ _ base hb
    have hc : cstrAt (P ++ strs (x :: t) ++ post) (Slot.ptr base) = some x := by
      simp only [cstrAt, hlook]
    show readCells (P ++ strs (x :: t) ++ post)
        (Slot.ptr base :: (ptrs (base + 1) t.length ++ [Slot.null])) = some (x :: t)
    simp only [readCells, hc, hrest]

theorem cellsAt_vecBlocks (pre post : Heap) (xs : List String) (a : Nat) (ha : a = pre.length) :
    cellsAt (pre ++ vecBlocks a xs ++ post) a
      = some (ptrs (a + 1) xs.length ++ [Slot.null]) := by
  have e : pre ++ vecBlocks a xs ++ post
      = pre ++ some (Block.arr (ptrs (a + 1) xs.length ++ [Slot.null])) :: (strs xs ++ post) := by
    simp [vecBlocks]
  rw [e]
  exact cellsAt_mid pre _ _ a ha

theorem readVec_vecBlocks (pre post : Heap) (xs : List String) (a : Nat) (ha : a = pre.length) :
    readVec (pre ++ vecBlocks a xs ++ post) a = some xs := by
  unfold readVec
  rw [cellsAt_vecBlocks pre post xs a ha]
  have e : pre ++ vecBlocks a xs ++ post
      = (pre ++ [some (Block.arr (ptrs (a + 1) xs.length ++ [Slot.null]))]) ++ strs xs ++ post := by
    simp [vecBlocks]
  rw [e]
  exact readCells_ptrs _ post xs (a + 1) (by simp [ha])

theorem cellsAt_forkHeap_argv (h0 : Heap) (xs envp : List String) :
    cellsAt (forkHeap h0 xs envp) h0.length
      = some (ptrs (h0.length + 1) xs.length ++ [Slot.null]) :=
  cellsAt_vecBlocks h0 _ xs h0.length rfl

theorem readVec_forkHeap_argv (h0 : Heap) (xs envp : List String) :
    readVec (forkHeap h0 xs envp) h0.length = some xs :=
  readVec_vecBlocks h0 _ xs h0.length rfl

theorem cellsAt_forkHeap_envp (h0 : Heap) (xs envp : List String) :
    cellsAt (forkHeap h0 xs envp) (h0.length + (xs.length + 1))
      = some (ptrs (h0.length + (xs.length + 1) + 1) envp.length ++ [Slot.null]) := by
  have h := cellsAt_vecBlocks (h0 ++ vecBlocks h0.length xs) [] envp
    (h0.length + (xs.length + 1)) (by simp [vecBlocks_length])
  simpa [forkHeap] using h

theorem readVec_forkHeap_envp (h0 : Heap) (xs envp : List String) :
    readVec (forkHeap h0 xs envp) (h0.length + (xs.length + 1)) = some envp := by
  have h := readVec_vecBlocks (h0 ++ vecBlocks h0.length xs) [] envp
    (h0.length + (xs.length + 1)) (by simp [vecBlocks_length])
  simpa [forkHeap] using h

/-! ## Facts about live allocations -/

theorem liveSince_append (pre L : Heap) :
    liveSince pre.length (pre ++ L)
      = ((List.range L.length).filter (fun j => (L.getD j none).isSome)).map
          (fun j => pre.length + j) := by
  unfold liveSince
  rw [List.length_append, List.range_add, List.filter_append]
  have h1 : (List.range pre.length).filter
      (fun a => decide (pre.length ≤ a) && ((pre ++ L).getD a none).isSome) = [] := by
    rw [List.filter_eq_nil_iff]
    intro a ha
    have hlt : a < pre.length := List.mem_range.mp ha
    simp
    intro hle
    omega
  rw [h1, List.nil_append, List.filter_map]
  congr 1
  apply List.filter_congr
  intro j _
  simp [List.getD_eq_getElem?_getD, List.getElem?_append_right]

theorem liveSince_tombstones (pre : Heap) (m : Nat) :
    liveSince pre.length (pre ++ List.replicate m none) = [] := by
  rw [liveSince_append]
  have h : (List.range (List.replicate m (none : Option Block)).length).filter
      (fun j => ((List.replicate m (none : Option Block)).getD j none).isSome) = [] := by
    rw [List.filter_eq_nil_iff]
    intro j _
    simp [List.getD_eq_getElem?_getD, List.getElem?_replicate]
    split <;> simp
  rw [h]
  rfl

theorem liveSince_all_live (pre L : Heap) (hL : ∀ x ∈ L, x.isSome = true) :
    (liveSince pre.length (pre ++ L)).length = L.length := by
  rw [liveSince_append, List.length_map]
  have h : (List.range L.length).filter (fun j => (L.getD j none).isSome)
      = List.range L.length := by
    rw [List.filter_eq_self]
    intro j hj
    have hlt : j < L.length := List.mem_range.mp hj
    rw [List.getD_eq_getElem?_getD, List.getElem?_eq_getElem hlt]
    exact hL _ (List.getElem_mem hlt)
  rw [h, List.length_range]

theorem vecBlocks_all_live (a : Nat) (xs : List String) :
    ∀ x ∈ vecBlocks a xs, x.isSome = true := by
  intro x hx
  simp only [vecBlocks, strs, List.mem_cons, List.mem_map] at hx
  rcases hx with rfl | ⟨s, _, rfl⟩ <;> rfl

theorem liveSince_forkHeap (h0 : Heap) (xs envp : List String) :
    (liveSince h0.length (forkHeap h0 xs envp)).length = xs.length + envp.length + 2 := by
  have e : forkHeap h0 xs envp
      = h0 ++ (vecBlocks h0.length xs ++ vecBlocks (h0.length + (xs.length + 1)) envp) := by
    simp [forkHeap]
  rw [e, liveSince_all_live]
  · simp [vecBlocks_length]; omega
  · intro x hx
    rcases List.mem_append.mp hx with h | h
    · exact vecBlocks_all_live _ _ x h
    · exact vecBlocks_all_live _ _ x h

/-- In the parent, after a successful `fork`, both spawn operations return
with every block they allocated released. -/
theorem parent_return_releases_all (h0 : Heap) (l lib b : String) (args envp : List String)
    (pid : Int) (execOk : Bool) (hpid : 0 < pid) :
    (∃ h, (nativeExec h0 b args envp pid execOk).returnHeap = some h
        ∧ liveSince h0.length h = [])
      ∧ (∃ h, (nativeExecWithLinker h0 l lib b args envp pid execOk).returnHeap = some h
        ∧ liveSince h0.length h = []) := by
  have h1 : ¬ pid < 0 := by omega
  have h2 : ¬ pid = 0 := by omega
  have e : ∀ m n : Nat, h0 ++ List.replicate m none ++ List.replicate n none
      = h0 ++ List.replicate (m + n) (none : Option Block) := by
    intro m n
    rw [List.append_assoc, List.append_replicate_replicate]
  refine ⟨⟨h0 ++ List.replicate (args.length + 1) none
      ++ List.replicate (envp.length + 1) none, ?_, ?_⟩,
    ⟨h0 ++ List.replicate ((linkerArgv l lib b args).length + 1) none
      ++ List.replicate (envp.length + 1) none, ?_, ?_⟩⟩
  · rw [nativeExec_eq, if_neg h1, if_neg h2]; rfl
  · rw [e]; exact liveSince_tombstones _ _
  · rw [nativeExecWithLinker_eq, if_neg h1, if_neg h2]; rfl
  · rw [e]; exact liveSince_tombstones _ _

/-! ## The spawner's contracts -/

theorem execAttempt_child_exec (h0 : Heap) (b : String) (args envp : List String)
    (execOk : Bool) :
    (nativeExec h0 b args envp 0 execOk).execAttempt
      = some ⟨b, h0.length, h0.length + (args.length + 1), forkHeap h0 args envp⟩ := by
  rw [nativeExec_eq, if_neg (by decide), if_pos rfl]
  cases execOk <;> rfl

theorem execAttempt_child_linker (h0 : Heap) (l lib b : String) (args envp : List String)
    (execOk : Bool) :
    (nativeExecWithLinker h0 l lib b args envp 0 execOk).execAttempt
      = some ⟨l, h0.length, h0.length + ((linkerArgv l lib b args).length + 1),
          forkHeap h0 (linkerArgv l lib b args) envp⟩ := by
  rw [nativeExecWithLinker_eq, if_neg (by decide), if_pos rfl]
  cases execOk <;> rfl

theorem last_cell_null (base n : Nat) :
    (ptrs base n ++ [Slot.null])[n]? = some Slot.null := by
  rw [List.getElem?_append_right (by rw [ptrs_length]), ptrs_length, Nat.sub_self]
  rfl

/-- C1: in the child, `nativeExecWithLinker` calls `execve` with target
`linkerPath` and with an argument array of `4 + |argv| + 1` cells whose last
cell, at index `4 + |argv|`, is the null terminator and which reads as
`[linkerPath, "--library-path", libraryPath, binaryPath] ++ argv`; cell
`4 + i` points to a copy of `argv[i]` for every `i < |argv|`. -/
theorem linker_execve_vector (h0 : Heap) (l lib b : String) (args envp : List String)
    (execOk : Bool) :
    ∃ c cells,
      (nativeExecWithLinker h0 l lib b args envp 0 execOk).execAttempt = some c
        ∧ c.path = l
        ∧ cellsAt c.heap c.argv = some cells
        ∧ cells.length = 4 + args.length + 1
        ∧ cells[4 + args.length]? = some Slot.null
        ∧ readVec c.heap c.argv = some ([l, "--library-path", lib, b] ++ args)
        ∧ ∀ i, i < args.length →
            ∃ p, cells[4 + i]? = some (Slot.ptr p) ∧ cstrAt c.heap (Slot.ptr p) = args[i]? := by
  have hL := linkerArgv_length l lib b args
  have hcells := cellsAt_forkHeap_argv h0 (linkerArgv l lib b args) envp
  have hread := readVec_forkHeap_argv h0 (linkerArgv l lib b args) envp
  have hrc : readCells (forkHeap h0 (linkerArgv l lib b args) envp)
      (ptrs (h0.length + 1) (linkerArgv l lib b args).length ++ [Slot.null])
      = some (linkerArgv l lib b args) := by
    have h := hread
    unfold readVec at h
    rw [hcells] at h
    exact h
  refine ⟨_, ptrs (h0.length + 1) (linkerArgv l lib b args).length ++ [Slot.null],
    execAttempt_child_linker h0 l lib b args envp execOk, rfl, hcells, ?_, ?_, hread, ?_⟩
  · simp [ptrs_length, hL]
  · rw [← hL]; exact last_cell_null _ _
  · intro i hi
    obtain ⟨p, hp1, hp2⟩ := (readCells_spec _ _ _ hrc).2 (4 + i) (by omega)
    refine ⟨p, hp1, ?_⟩
    rw [hp2]
    have e : 4 + i = i + 1 + 1 + 1 + 1 := by omega
    rw [e]
    simp only [linkerArgv, List.cons_append, List.nil_append, List.getElem?_cons_succ]

/-- C2: in the child, `nativeExec` calls `execve` with target `binaryPath`,
with an argument array that reads as the caller's `argv`, in order, and has
exactly one more cell, the null terminator, and with an environment array
that reads as the caller's `envp`, in order, and has exactly one more cell,
the null terminator: the environment is `envp` and nothing else.  The
environment array of `nativeExecWithLinker` is the same. -/
theorem child_execve_vectors (h0 : Heap) (l lib b : String) (args envp : List String)
    (execOk : Bool) :
    (∃ c av ev,
      (nativeExec h0 b args envp 0 execOk).execAttempt = some c
        ∧ c.path = b
        ∧ cellsAt c.heap c.argv = some av
        ∧ av.length = args.length + 1
        ∧ av[args.length]? = some Slot.null
        ∧ readVec c.heap c.argv = some args
        ∧ cellsAt c.heap c.envp = some ev
        ∧ ev.length = envp.length + 1
        ∧ ev[envp.length]? = some Slot.null
        ∧ readVec c.heap c.envp = some envp)
      ∧ (∃ c ev,
        (nativeExecWithLinker h0 l lib b args envp 0 execOk).execAttempt = some c
          ∧ cellsAt c.heap c.envp = some ev
          ∧ ev.length = envp.length + 1
          ∧ ev[envp.length]? = some Slot.null
          ∧ readVec c.heap c.envp = some envp) := by
  refine ⟨⟨_, _, _, execAttempt_child_exec h0 b args envp execOk, rfl,
      cellsAt_forkHeap_argv h0 args envp, ?_, last_cell_null _ _,
      readVec_forkHeap_argv h0 args envp,
      cellsAt_forkHeap_envp h0 args envp, ?_, last_cell_null _ _,
      readVec_forkHeap_envp h0 args envp⟩,
    ⟨_, _, execAttempt_child_linker h0 l lib b args envp execOk,
      cellsAt_forkHeap_envp h0 (linkerArgv l lib b args) envp, ?_, last_cell_null _ _,
      readVec_forkHeap_envp h0 (linkerArgv l lib b args) envp⟩⟩
  all_goals simp [ptrs_length]

/-- C6: seen from the calling process (`fork` did not return `0`), both spawn
operations return `-1` when `fork` failed and exactly the pid that `fork`
reported, a positive number, when it succeeded; the calling process attempts
no `execve`, and its outcome is the same whether or not the child's `execve`
succeeds. -/
theorem spawn_parent_return (h0 : Heap) (l lib b : String) (args envp : List String)
    (pid : Int) (execOk execOk2 : Bool) (hne : pid ≠ 0) :
    ((pid < 0 ∧ (nativeExec h0 b args envp pid execOk).returnValue = some (-1))
        ∨ (0 < pid ∧ (nativeExec h0 b args envp pid execOk).returnValue = some pid))
      ∧ (nativeExec h0 b args envp pid execOk).execAttempt = none
      ∧ nativeExec h0 b args envp pid execOk = nativeExec h0 b args envp pid execOk2
      ∧ ((pid < 0
            ∧ (nativeExecWithLinker h0 l lib b args envp pid execOk).returnValue = some (-1))
        ∨ (0 < pid
            ∧ (nativeExecWithLinker h0 l lib b args envp pid execOk).returnValue = some pid))
      ∧ (nativeExecWithLinker h0 l lib b args envp pid execOk).execAttempt = none
      ∧ nativeExecWithLinker h0 l lib b args envp pid execOk
          = nativeExecWithLinker h0 l lib b args envp pid execOk2 := by
  rw [nativeExec_eq, nativeExec_eq, nativeExecWithLinker_eq, nativeExecWithLinker_eq]
  by_cases hneg : pid < 0
  · simp [hneg, Outcome.returnValue, Outcome.execAttempt]
  · have hpos : 0 < pid := by omega
    simp [hneg, hne, hpos, Outcome.returnValue, Outcome.execAttempt]

/-- C6, witness: `fork` fails (`-1`) for `/bin/true`. -/
theorem spawn_parent_return_witness :
    (((-1 : Int) < 0
          ∧ (nativeExec [] "/bin/true" ["true"] ["PATH=/bin"] (-1) true).returnValue = some (-1))
        ∨ (0 < (-1 : Int)
          ∧ (nativeExec [] "/bin/true" ["true"] ["PATH=/bin"] (-1) true).returnValue
              = some (-1)))
      ∧ (nativeExec [] "/bin/true" ["true"] ["PATH=/bin"] (-1) true).execAttempt = none
      ∧ nativeExec [] "/bin/true" ["true"] ["PATH=/bin"] (-1) true
          = nativeExec [] "/bin/true" ["true"] ["PATH=/bin"] (-1) false
      ∧ (((-1 : Int) < 0
            ∧ (nativeExecWithLinker [] "/ld.so" "/lib" "/bin/true" ["true"] ["PATH=/bin"]
                (-1) true).returnValue = some (-1))
        ∨ (0 < (-1 : Int)
            ∧ (nativeExecWithLinker [] "/ld.so" "/lib" "/bin/true" ["true"] ["PATH=/bin"]
                (-1) true).returnValue = some (-1)))
      ∧ (nativeExecWithLinker [] "/ld.so" "/lib" "/bin/true" ["true"] ["PATH=/bin"]
          (-1) true).execAttempt = none
      ∧ nativeExecWithLinker [] "/ld.so" "/lib" "/bin/true" ["true"] ["PATH=/bin"] (-1) true
          = nativeExecWithLinker [] "/ld.so" "/lib" "/bin/true" ["true"] ["PATH=/bin"]
              (-1) false :=
  spawn_parent_return [] "/ld.so" "/lib" "/bin/true" ["true"] ["PATH=/bin"] (-1) true false
    (by decide)

/-- C7: when `execve` returns in the child, both spawn operations end the
child by `_exit(1)`: control does not return to the caller and the heap is
the one `execve` was called with (no parent-side cleanup ran).  Applied to
the wait status of such a child, `nativeWaitFor` returns `1`, which is not
`0`. -/
theorem exec_failure_exit (h0 : Heap) (l lib b : String) (args envp : List String)
    (k : Kernel) (pid : Int)
    (hok : 0 ≤ (waitpid k pid).1.result)
    (hst : some (waitpid k pid).1.status
        = (nativeExec h0 b args envp 0 false).childStatus
      ∨ some (waitpid k pid).1.status
        = (nativeExecWithLinker h0 l lib b args envp 0 false).childStatus) :
    (∃ c, nativeExec h0 b args envp 0 false = Outcome.exited 1 c c.heap)
      ∧ (∃ c, nativeExecWithLinker h0 l lib b args envp 0 false = Outcome.exited 1 c c.heap)
      ∧ (nativeExec h0 b args envp 0 false).returnValue = none
      ∧ (nativeExecWithLinker h0 l lib b args envp 0 false).returnValue = none
      ∧ (nativeWaitFor k pid).1 = 1
      ∧ (nativeWaitFor k pid).1 ≠ 0 := by
  have e1 : nativeExec h0 b args envp 0 false
      = Outcome.exited 1
          ⟨b, h0.length, h0.length + (args.length + 1), forkHeap h0 args envp⟩
          (forkHeap h0 args envp) := by
    rw [nativeExec_eq, if_neg (by decide), if_pos rfl]; rfl
  have e2 : nativeExecWithLinker h0 l lib b args envp 0 false
      = Outcome.exited 1
          ⟨l, h0.length, h0.length + ((linkerArgv l lib b args).length + 1),
            forkHeap h0 (linkerArgv l lib b args) envp⟩
          (forkHeap h0 (linkerArgv l lib b args) envp) := by
    rw [nativeExecWithLinker_eq, if_neg (by decide), if_pos rfl]; rfl
  have hs : (waitpid k pid).1.status = exitStatusWord 1 := by
    rw [e1, e2] at hst
    simp only [Outcome.childStatus, Option.some.injEq, or_self] at hst
    exact hst
  have hw : (nativeWaitFor k pid).1 = 1 := by
    rw [wait_exited_value k pid hok (by rw [hs]; decide), hs]
    decide
  refine ⟨⟨_, e1⟩, ⟨_, e2⟩, by rw [e1]; rfl, by rw [e2]; rfl, hw, by rw [hw]; decide⟩

/-- C7, witness: `/nonexistent` cannot be executed; the child's status word is
`0x100`. -/
theorem exec_failure_exit_witness :
    (∃ c, nativeExec [] "/nonexistent" ["x"] [] 0 false = Outcome.exited 1 c c.heap)
      ∧ (∃ c, nativeExecWithLinker [] "/ld.so" "/lib" "/nonexistent" ["x"] [] 0 false
          = Outcome.exited 1 c c.heap)
      ∧ (nativeExec [] "/nonexistent" ["x"] [] 0 false).returnValue = none
      ∧ (nativeExecWithLinker [] "/ld.so" "/lib" "/nonexistent" ["x"] [] 0 false).returnValue
          = none
      ∧ (nativeWaitFor (Kernel.const ⟨42, 0x100⟩) 42).1 = 1
      ∧ (nativeWaitFor (Kernel.const ⟨42, 0x100⟩) 42).1 ≠ 0 :=
  exec_failure_exit [] "/ld.so" "/lib" "/nonexistent" ["x"] [] (Kernel.const ⟨42, 0x100⟩) 42
    (by decide) (Or.inl (by decide))

/-- C9: the process-creation-failure path of both spawn operations returns
`-1` with every block the call allocated still live: `|argv| + |envp| + 2`
blocks for `nativeExec` (each duplicated string and both pointer arrays) and
`|argv| + |envp| + 6` for `nativeExecWithLinker`. -/
theorem fork_failure_leaks (h0 : Heap) (l lib b : String) (args envp : List String)
    (execOk : Bool) :
    (∃ h, nativeExec h0 b args envp (-1) execOk = Outcome.returned (-1) h
        ∧ (liveSince h0.length h).length = args.length + envp.length + 2)
      ∧ (∃ h, nativeExecWithLinker h0 l lib b args envp (-1) execOk = Outcome.returned (-1) h
        ∧ (liveSince h0.length h).length = args.length + envp.length + 6) := by
  refine ⟨⟨forkHeap h0 args envp, ?_, liveSince_forkHeap h0 args envp⟩,
    ⟨forkHeap h0 (linkerArgv l lib b args) envp, ?_, ?_⟩⟩
  · rw [nativeExec_eq, if_pos (by decide)]
  · rw [nativeExecWithLinker_eq, if_pos (by decide)]
  · rw [liveSince_forkHeap, linkerArgv_length]; omega

/-! ## Evaluation on small inputs -/

example : nativeExec [] "/bin/true" ["true"] ["PATH=/bin"] 7 true
    = Outcome.returned 7 [none, none, none, none] := by decide

example : nativeExec [] "/bin/true" ["true"] ["PATH=/bin"] (-1) true
    = Outcome.returned (-1)
        [some (Block.arr [Slot.ptr 1, Slot.null]), some (Block.str "true"),
         some (Block.arr [Slot.ptr 3, Slot.null]), some (Block.str "PATH=/bin")] := by decide

example : (nativeWaitFor (Kernel.const ⟨42, 9⟩) 42).1 = 137 := by decide

example : (nativeWaitFor (Kernel.const ⟨42, 0x8900⟩) 42).1 = 137 := by decide

end LinuxLauncher
